import Mathlib

/-!
# Verification of the hangman round engine

Shallow embedding of the round logic of `hangman_game.py` and of the
near-duplicate revision `hangman_game_Version2.py`.  Python strings are
modelled as Lean `String` (a list of unicode characters), Python's `set`
of strings as a duplicate-free `List String` (adding an element is a
no-op when it is already present, exactly as for a Python set), and
Python's unbounded integers as `Nat` (they only ever count up from 0)
with `Int` where a subtraction appears.

The file first gives the definitions, translated from the source, then
the theorems about them.
-/

/-! ## Python string primitives -/

/-- Python `str.strip()`: remove leading and trailing whitespace
characters from both ends of the string. -/
def pyStrip (s : String) : String :=
  ⟨((s.data.dropWhile Char.isWhitespace).reverse.dropWhile Char.isWhitespace).reverse⟩

/-- Code point of an ASCII uppercase letter, as in Python's `str.lower`
case analysis. -/
def pyIsUpperChar (c : Char) : Bool := 65 ≤ c.toNat && c.toNat ≤ 90

/-- Code point of an ASCII lowercase letter. -/
def pyIsLowerChar (c : Char) : Bool := 97 ≤ c.toNat && c.toNat ≤ 122

/-- Python `str.lower()` on one character.  Modelled for the ASCII range:
an uppercase letter moves down by 32 code points, everything else is
unchanged.  (The sources only ever use the lowered value of strings whose
relevant characters passed the ASCII `isascii`/`isalpha` checks.) -/
def pyLowerChar (c : Char) : Char :=
  if pyIsUpperChar c then Char.ofNat (c.toNat + 32) else c

/-- Python `str.lower()` applied to every character. -/
def pyLower (s : String) : String := ⟨s.data.map pyLowerChar⟩

/-- Python `str.isascii()`: every character has a code point below 128
(vacuously true for the empty string). -/
def pyIsAscii (s : String) : Bool := s.data.all fun c => c.toNat < 128

/-- Python `str.isalpha()`: nonempty and every character alphabetic.
Among code points below 128 the alphabetic characters are exactly A–Z
and a–z; the sources only consult `isalpha` jointly with `isascii`, so
the ASCII reading is faithful on every path where the result is used. -/
def pyIsAlpha (s : String) : Bool :=
  (!s.data.isEmpty) && s.data.all fun c => pyIsUpperChar c || pyIsLowerChar c

/-- Python `sub in s` on strings: substring containment. -/
def pyIn (sub s : String) : Bool := decide (sub.data <:+: s.data)

/-- Python `set.add(x)`: insert the element unless it is already a
member (a set never holds duplicates); the model keeps insertion
order. -/
def pySetAdd (x : String) (s : List String) : List String :=
  if x ∈ s then s else s ++ [x]

/-- Python `l[i]` on a list: a nonnegative index counts from the front,
a negative index counts from the end, anything out of range raises
`IndexError` (modelled as `none`). -/
def pyIndex (l : List String) (i : Int) : Option String :=
  if 0 ≤ i then l.get? i.toNat
  else if (-i).toNat ≤ l.length then l.get? (l.length - (-i).toNat) else none

/-! ## `hangman_game.py`: rendering helpers -/

/-- The per-position tokens of the masked word: the generator expression
`(c if c in guessed_letters else "_") for c in word` materialised as a
list (each `c` is a one-character string, tested for membership in the
set of guessed strings). -/
def maskTokens (word : String) (guessed_letters : List String) : List String :=
  word.data.map fun c =>
    if String.singleton c ∈ guessed_letters then String.singleton c else "_"

/-- Model of `display_game_state(word, guessed_letters)`:
`" ".join((c if c in guessed_letters else "_") for c in word)`. -/
def display_game_state (word : String) (guessed_letters : List String) : String :=
  String.intercalate " " (maskTokens word guessed_letters)

/-- The `stages` list of `display_hangman` in `hangman_game.py`, with
Python's literal-escape semantics applied: the invalid escape
`\|` stays as the two characters backslash-pipe, and the bare backslash
at the end of the `/ \` line of the first frame is a line continuation,
so that line merges with the following `-` line. -/
def stages : List String :=
  [ "\n           --------\n           |      |\n           |      O\n           |     \\|/\n           |      |\n           |     /            -\n        ",
    "\n           --------\n           |      |\n           |      O\n           |     \\|/\n           |      |\n           |     /\n           -\n        ",
    "\n           --------\n           |      |\n           |      O\n           |     \\|/\n           |      |\n           |      |\n           -\n        ",
    "\n           --------\n           |      |\n           |      O\n           |     \\|\n           |      |\n           |      |\n           -\n        ",
    "\n           --------\n           |      |\n           |      O\n           |      |\n           |      |\n           |      |\n           -\n        ",
    "\n           --------\n           |      |\n           |      O\n           |\n           |\n           |\n           -\n        ",
    "\n           --------\n           |      |\n           |\n           |\n           |\n           |\n           -\n        " ]

/-- Model of `display_hangman(incorrect_guesses)` in `hangman_game.py`:
`idx = max(0, min(6, 6 - incorrect_guesses)); return stages[idx]`. -/
def display_hangman (incorrect_guesses : Nat) : Option String :=
  pyIndex stages (max 0 (min 6 (6 - (incorrect_guesses : Int))))

/-- The `stages` list of `display_hangman` in
`hangman_game_Version2.py` (this revision escapes its backslashes). -/
def stagesV2 : List String :=
  [ "\n           --------\n           |      |\n           |      O\n           |     \\|/\n           |      |\n           |     / \\\n           -\n        ",
    "\n           --------\n           |      |\n           |      O\n           |     \\|/\n           |      |\n           |     /\n           -\n        ",
    "\n           --------\n           |      |\n           |      O\n           |     \\|/\n           |      |\n           |\n           -\n        ",
    "\n           --------\n           |      |\n           |      O\n           |     \\|\n           |      |\n           |\n           -\n        ",
    "\n           --------\n           |      |\n           |      O\n           |      |\n           |      |\n           |\n           -\n        ",
    "\n           --------\n           |      |\n           |      O\n           |\n           |\n           |\n           -\n        ",
    "\n           --------\n           |      |\n           |\n           |\n           |\n           |\n           -\n        " ]

/-- Model of `display_hangman(incorrect_guesses)` in `hangman_game_Version2.py`:
`return stages[6 - incorrect_guesses]` (no clamping). -/
def display_hangman_V2 (incorrect_guesses : Nat) : Option String :=
  pyIndex stagesV2 (6 - (incorrect_guesses : Int))

/-- The remaining-guess count printed by `display_game_status`:
`remaining = max_guesses - incorrect_guesses`. -/
def remaining_display (max_guesses incorrect_guesses : Nat) : Int :=
  (max_guesses : Int) - (incorrect_guesses : Int)

/-! ## `validate_guess` -/

/-- Model of `validate_guess(raw_guess, guessed_letters)` from `hangman_game.py`.
Returns `(false, error_message)` on invalid input and
`(true, processed_guess)` on success.  A missing (`None`) raw guess is
modelled as `none`. -/
def validate_guess (raw_guess : Option String) (guessed_letters : List String) :
    Bool × String :=
  match raw_guess with
  | none => (false, "Please enter a letter.")
  | some raw =>
    let guess := pyStrip raw
    if guess = "" then (false, "Please enter a letter.")
    else if guess.length ≠ 1 then (false, "Please enter a single letter.")
    else if !pyIsAscii guess || !pyIsAlpha guess then
      (false, "Please enter a letter from A-Z.")
    else
      let guess := pyLower guess
      if guess ∈ guessed_letters then
        (false, "You already guessed \x27" ++ guess ++ "\x27. Try a different letter.")
      else (true, guess)

/-! ## The round state and the guess-processing loop -/

/-- The mutable round state of `play_hangman` (both revisions):
the secret word, the mistake budget, the mistake count, the set of
guessed strings and the turn counter. -/
structure GameState where
  secret_word : String
  max_incorrect_guesses : Nat
  incorrect_guesses : Nat
  guessed_letters : List String
  turns_taken : Nat
  deriving DecidableEq

/-- Source expression `all(letter in guessed_letters for letter in secret_word)`: every
letter of the word, as a one-character string, is in the guessed set. -/
def all_letters_guessed (secret_word : String) (guessed_letters : List String) : Bool :=
  secret_word.data.all fun letter => decide (String.singleton letter ∈ guessed_letters)

/-- What one iteration of the guess loop reports back. -/
inductive StepOutcome where
  | rejected (msg : String)
  | won
  | continued
  deriving DecidableEq, Repr, Inhabited

/-- One iteration of the `while` body of `play_hangman` in
`hangman_game.py`, for one raw input line: validate; on rejection leave
the state untouched; otherwise count the turn, insert the processed
letter, and either detect the win (`guess in secret_word` and all
letters guessed), keep going, or count a mistake. -/
def process_guess (st : GameState) (raw : Option String) : GameState × StepOutcome :=
  let v := validate_guess raw st.guessed_letters
  if v.1 = false then
    (st, .rejected v.2)
  else
    let st1 : GameState :=
      { st with turns_taken := st.turns_taken + 1,
                guessed_letters := pySetAdd v.2 st.guessed_letters }
    if pyIn v.2 st1.secret_word then
      if all_letters_guessed st1.secret_word st1.guessed_letters then (st1, .won)
      else (st1, .continued)
    else
      ({ st1 with incorrect_guesses := st1.incorrect_guesses + 1 }, .continued)

/-- How a round run over a finite list of input lines ends. -/
inductive RoundResult where
  | win (st : GameState)
  | loss (st : GameState)
  | outOfInput (st : GameState)
  deriving DecidableEq

/-- The `while incorrect_guesses < max_incorrect_guesses` loop of
`play_hangman` in `hangman_game.py`, driven by a finite list of raw
input lines: a win returns immediately; once the guard fails the loss
path is taken; an exhausted input list is reported as such. -/
def play_hangman_loop (st : GameState) : List (Option String) → RoundResult
  | [] =>
    if st.incorrect_guesses < st.max_incorrect_guesses then .outOfInput st
    else .loss st
  | raw :: rest =>
    if st.incorrect_guesses < st.max_incorrect_guesses then
      match process_guess st raw with
      | (st1, .won) => .win st1
      | (st1, _) => play_hangman_loop st1 rest
    else .loss st

/-! ## `hangman_game_Version2.py`: its guess loop

This revision differs from `hangman_game.py` in three ways inside the
loop body: the raw input line is lowercased up front, `turns_taken` is
incremented before validation, and on success the raw lowered line —
not the processed letter returned by `validate_guess` — is inserted
into the set and tested against the word. -/

/-- One iteration of the `while` body of `play_hangman` in
`hangman_game_Version2.py`, for one raw input line. -/
def process_guess_V2 (st : GameState) (raw : String) : GameState × StepOutcome :=
  let guess := pyLower raw
  let st1 : GameState := { st with turns_taken := st.turns_taken + 1 }
  let v := validate_guess (some guess) st1.guessed_letters
  if v.1 = false then
    (st1, .rejected v.2)
  else
    let st2 : GameState := { st1 with guessed_letters := pySetAdd guess st1.guessed_letters }
    if pyIn guess st2.secret_word then
      if all_letters_guessed st2.secret_word st2.guessed_letters then (st2, .won)
      else (st2, .continued)
    else
      ({ st2 with incorrect_guesses := st2.incorrect_guesses + 1 }, .continued)

/-- The guess loop of `play_hangman` in `hangman_game_Version2.py`. -/
def play_hangman_loop_V2 (st : GameState) : List String → RoundResult
  | [] =>
    if st.incorrect_guesses < st.max_incorrect_guesses then .outOfInput st
    else .loss st
  | raw :: rest =>
    if st.incorrect_guesses < st.max_incorrect_guesses then
      match process_guess_V2 st raw with
      | (st1, .won) => .win st1
      | (st1, _) => play_hangman_loop_V2 st1 rest
    else .loss st

/-- The loop-head states a round visits: `Reaches st s` holds when the
loop, started at `st`, can be looking at state `s` after some prefix of
the input stream (rejected and continuing guesses keep looping; the
guard must hold for a step to be taken). -/
inductive Reaches : GameState → GameState → Prop where
  | refl (st : GameState) : Reaches st st
  | step (st st1 st2 : GameState) (raw : Option String) (o : StepOutcome) :
      st.incorrect_guesses < st.max_incorrect_guesses →
      process_guess st raw = (st1, o) →
      Reaches st1 st2 →
      Reaches st st2

/-! ## Helper lemmas -/

theorem singleton_eq_underscore_iff (c : Char) : String.singleton c = "_" ↔ c = '_' := by
  constructor
  · intro h
    have h2 : [c] = ['_'] := congrArg String.data h
    simpa using h2
  · rintro rfl
    rfl

theorem singleton_infix_iff (c : Char) (l : List Char) : [c] <:+: l ↔ c ∈ l := by
  constructor
  · rintro ⟨u, t, rfl⟩
    simp
  · intro h
    obtain ⟨u, t, rfl⟩ := List.append_of_mem h
    exact ⟨u, t, by simp⟩

theorem mem_pySetAdd (y x : String) (s : List String) :
    y ∈ pySetAdd x s ↔ y ∈ s ∨ y = x := by
  unfold pySetAdd
  split_ifs with hx
  · constructor
    · exact Or.inl
    · rintro (h | rfl)
      · exact h
      · exact hx
  · simp

theorem process_guess_of_invalid (st : GameState) (raw : Option String)
    (h : (validate_guess raw st.guessed_letters).1 = false) :
    process_guess st raw = (st, .rejected (validate_guess raw st.guessed_letters).2) := by
  simp [process_guess, h]

theorem process_guess_max (st : GameState) (raw : Option String) :
    (process_guess st raw).1.max_incorrect_guesses = st.max_incorrect_guesses := by
  simp only [process_guess]
  split_ifs <;> rfl

theorem process_guess_incorrect_cases (st : GameState) (raw : Option String) :
    (process_guess st raw).1.incorrect_guesses = st.incorrect_guesses ∨
      (process_guess st raw).1.incorrect_guesses = st.incorrect_guesses + 1 := by
  simp only [process_guess]
  split_ifs <;> simp

theorem play_hangman_loop_loss (inputs : List (Option String)) :
    ∀ st stl : GameState, st.incorrect_guesses ≤ st.max_incorrect_guesses →
      play_hangman_loop st inputs = .loss stl →
      stl.incorrect_guesses = stl.max_incorrect_guesses ∧
        stl.max_incorrect_guesses = st.max_incorrect_guesses := by
  induction inputs with
  | nil =>
    intro st stl hinv h
    unfold play_hangman_loop at h
    split_ifs at h with hlt
    injection h with h1
    subst h1
    exact ⟨le_antisymm hinv (not_lt.mp hlt), rfl⟩
  | cons raw rest ih =>
    intro st stl hinv h
    unfold play_hangman_loop at h
    split_ifs at h with hlt
    · rcases hpg : process_guess st raw with ⟨st1, o⟩
      rw [hpg] at h
      have hmax : st1.max_incorrect_guesses = st.max_incorrect_guesses := by
        simpa [hpg] using process_guess_max st raw
      have hcases := process_guess_incorrect_cases st raw
      rw [hpg] at hcases
      have hinv1 : st1.incorrect_guesses ≤ st1.max_incorrect_guesses := by
        simp only at hcases
        rcases hcases with h1 | h1 <;> omega
      cases o with
      | won => cases h
      | rejected msg =>
        obtain ⟨ha, hb⟩ := ih st1 stl hinv1 h
        exact ⟨ha, hb.trans hmax⟩
      | continued =>
        obtain ⟨ha, hb⟩ := ih st1 stl hinv1 h
        exact ⟨ha, hb.trans hmax⟩
    · injection h with h1
      subst h1
      exact ⟨le_antisymm hinv (not_lt.mp hlt), rfl⟩

theorem reaches_invariant (st s : GameState) (h : Reaches st s) :
    st.incorrect_guesses ≤ st.max_incorrect_guesses →
    s.incorrect_guesses ≤ s.max_incorrect_guesses ∧
      s.max_incorrect_guesses = st.max_incorrect_guesses := by
  induction h with
  | refl st => exact fun hinv => ⟨hinv, rfl⟩
  | step st st1 st2 raw o hlt hpg hr ih =>
    intro hinv
    have hmax : st1.max_incorrect_guesses = st.max_incorrect_guesses := by
      simpa [hpg] using process_guess_max st raw
    have hcases := process_guess_incorrect_cases st raw
    rw [hpg] at hcases
    have hinv1 : st1.incorrect_guesses ≤ st1.max_incorrect_guesses := by
      simp only at hcases
      rcases hcases with h1 | h1 <;> omega
    obtain ⟨ha, hb⟩ := ih hinv1
    exact ⟨ha, hb.trans hmax⟩

theorem completing_letter_in_word (word : String) (g : List String) (x : String)
    (hnc : all_letters_guessed word g = false)
    (hall : all_letters_guessed word (pySetAdd x g) = true) :
    pyIn x word = true := by
  simp only [all_letters_guessed, List.all_eq_false, decide_eq_true_eq] at hnc
  obtain ⟨c, hcmem, hc⟩ := hnc
  simp only [all_letters_guessed, List.all_eq_true, decide_eq_true_eq] at hall
  have := hall c hcmem
  rw [mem_pySetAdd] at this
  rcases this with h | h
  · exact absurd h hc
  · subst h
    show decide ([c] <:+: word.data) = true
    exact decide_eq_true ((singleton_infix_iff c word.data).mpr hcmem)

/-! ## Claims -/

/-- C1: for every secret word and every set of guessed letters,
`display_game_state` joins with a single space one token per character
position of the word, in order; the token at position `i` is the
character itself exactly when that character (as a one-character
string) is in the guessed set, and an underscore otherwise, so the
rendering reveals exactly the guessed positions, never more and never
less (the function is pure, so nothing is mutated). -/
theorem c1_masked_word_reveals_exactly (word : String) (guessed_letters : List String)
    (i : Nat) (h : i < word.data.length) :
    display_game_state word guessed_letters =
      String.intercalate " " (maskTokens word guessed_letters) ∧
    (maskTokens word guessed_letters).length = word.data.length ∧
    (maskTokens word guessed_letters).get ⟨i, by simpa [maskTokens] using h⟩ =
      (if String.singleton (word.data.get ⟨i, h⟩) ∈ guessed_letters
       then String.singleton (word.data.get ⟨i, h⟩) else "_") ∧
    (word.data.get ⟨i, h⟩ ≠ '_' →
      ((maskTokens word guessed_letters).get ⟨i, by simpa [maskTokens] using h⟩ =
          String.singleton (word.data.get ⟨i, h⟩) ↔
        String.singleton (word.data.get ⟨i, h⟩) ∈ guessed_letters)) := by
  have hget : (maskTokens word guessed_letters).get ⟨i, by simpa [maskTokens] using h⟩ =
      (if String.singleton (word.data.get ⟨i, h⟩) ∈ guessed_letters
       then String.singleton (word.data.get ⟨i, h⟩) else "_") := by
    simp [maskTokens]
  refine ⟨rfl, by simp [maskTokens], hget, fun hc => ?_⟩
  rw [hget]
  split_ifs with hmem
  · exact iff_of_true rfl hmem
  · simp only [hmem, iff_false]
    intro heq
    exact hc ((singleton_eq_underscore_iff _).mp heq.symm)

/-- C1 witness: word `"cat"` with guessed set `{"a"}`, position 1. -/
theorem c1_witness :
    (maskTokens "cat" ["a"]).get ⟨1, by decide⟩ =
      (if String.singleton ("cat".data.get ⟨1, by decide⟩) ∈ ["a"]
       then String.singleton ("cat".data.get ⟨1, by decide⟩) else "_") :=
  (c1_masked_word_reveals_exactly "cat" ["a"] 1 (by decide)).2.2.1

/-- C2: in both revisions, from any round state whose mistake budget is
not yet exhausted, a valid guess that makes every letter of the secret
word a member of the guessed set produces the `won` outcome and makes
the round loop return a win, regardless of the current mistake
count. -/
theorem c2_win_on_completion :
    (∀ (st : GameState) (raw : Option String) (rest : List (Option String)),
      st.incorrect_guesses < st.max_incorrect_guesses →
      (validate_guess raw st.guessed_letters).1 = true →
      all_letters_guessed st.secret_word st.guessed_letters = false →
      all_letters_guessed st.secret_word
        (pySetAdd (validate_guess raw st.guessed_letters).2 st.guessed_letters) = true →
      (process_guess st raw).2 = .won ∧
        play_hangman_loop st (raw :: rest) = .win (process_guess st raw).1) ∧
    (∀ (st : GameState) (raw : String) (rest : List String),
      st.incorrect_guesses < st.max_incorrect_guesses →
      (validate_guess (some (pyLower raw)) st.guessed_letters).1 = true →
      all_letters_guessed st.secret_word st.guessed_letters = false →
      all_letters_guessed st.secret_word
        (pySetAdd (pyLower raw) st.guessed_letters) = true →
      (process_guess_V2 st raw).2 = .won ∧
        play_hangman_loop_V2 st (raw :: rest) = .win (process_guess_V2 st raw).1) := by
  constructor
  · intro st raw rest hlt hv hnc hall
    have hin := completing_letter_in_word st.secret_word st.guessed_letters _ hnc hall
    have hpg : process_guess st raw =
        ({ st with turns_taken := st.turns_taken + 1,
                   guessed_letters :=
                     pySetAdd (validate_guess raw st.guessed_letters).2 st.guessed_letters },
          .won) := by
      simp [process_guess, hv, hin, hall]
    refine ⟨by rw [hpg], ?_⟩
    unfold play_hangman_loop
    rw [if_pos hlt, hpg]
  · intro st raw rest hlt hv hnc hall
    have hin := completing_letter_in_word st.secret_word st.guessed_letters _ hnc hall
    have hpg : process_guess_V2 st raw =
        ({ st with turns_taken := st.turns_taken + 1,
                   guessed_letters := pySetAdd (pyLower raw) st.guessed_letters },
          .won) := by
      simp [process_guess_V2, hv, hin, hall]
    refine ⟨by rw [hpg], ?_⟩
    unfold play_hangman_loop_V2
    rw [if_pos hlt, hpg]

/-- C2 witness: word `"cat"`, guessed set `{"c","a"}`, guess `"t"`, in
both revisions. -/
theorem c2_witness :
    ((process_guess ⟨"cat", 6, 5, ["c", "a"], 2⟩ (some "t")).2 = .won ∧
      play_hangman_loop ⟨"cat", 6, 5, ["c", "a"], 2⟩ [some "t"] =
        .win (process_guess ⟨"cat", 6, 5, ["c", "a"], 2⟩ (some "t")).1) ∧
    ((process_guess_V2 ⟨"cat", 6, 5, ["c", "a"], 2⟩ "t").2 = .won ∧
      play_hangman_loop_V2 ⟨"cat", 6, 5, ["c", "a"], 2⟩ ["t"] =
        .win (process_guess_V2 ⟨"cat", 6, 5, ["c", "a"], 2⟩ "t").1) :=
  ⟨c2_win_on_completion.1 ⟨"cat", 6, 5, ["c", "a"], 2⟩ (some "t") []
      (by decide) (by decide) (by decide) (by decide),
    c2_win_on_completion.2 ⟨"cat", 6, 5, ["c", "a"], 2⟩ "t" []
      (by decide) (by decide) (by decide) (by decide)⟩

/-- C3: with the mistake budget 6 of `play_hangman`, a round that takes
the loss path ends with exactly 6 mistakes and a displayed
remaining-guess count of exactly 0; once the mistake count reaches the
budget the loop ends and takes the loss path; and every loop-head
state of the round has a nonnegative remaining-guess count. -/
theorem c3_loss_at_budget (st stl : GameState) (inputs : List (Option String))
    (hmax : st.max_incorrect_guesses = 6) (hinv : st.incorrect_guesses ≤ 6) :
    (play_hangman_loop st inputs = .loss stl →
      stl.incorrect_guesses = 6 ∧
        remaining_display stl.max_incorrect_guesses stl.incorrect_guesses = 0) ∧
    (st.incorrect_guesses = st.max_incorrect_guesses →
      play_hangman_loop st inputs = .loss st) ∧
    (∀ s : GameState, Reaches st s →
      0 ≤ remaining_display s.max_incorrect_guesses s.incorrect_guesses) := by
  refine ⟨?_, ?_, ?_⟩
  · intro hloss
    obtain ⟨h1, h2⟩ := play_hangman_loop_loss inputs st stl (by omega) hloss
    refine ⟨by omega, ?_⟩
    simp only [remaining_display]
    omega
  · intro heq
    cases inputs with
    | nil =>
      unfold play_hangman_loop
      rw [if_neg (by omega)]
    | cons raw rest =>
      unfold play_hangman_loop
      rw [if_neg (by omega)]
  · intro s hs
    obtain ⟨h1, h2⟩ := reaches_invariant st s hs (by omega)
    simp only [remaining_display]
    omega

/-- C3 witness: word `"ab"`, six wrong guesses from the initial state. -/
theorem c3_witness :
    (⟨"ab", 6, 6, ["c", "d", "e", "f", "g", "h"], 6⟩ : GameState).incorrect_guesses = 6 ∧
      remaining_display
        (⟨"ab", 6, 6, ["c", "d", "e", "f", "g", "h"], 6⟩ : GameState).max_incorrect_guesses
        (⟨"ab", 6, 6, ["c", "d", "e", "f", "g", "h"], 6⟩ : GameState).incorrect_guesses = 0 :=
  (c3_loss_at_budget ⟨"ab", 6, 0, [], 0⟩ ⟨"ab", 6, 6, ["c", "d", "e", "f", "g", "h"], 6⟩
      [some "c", some "d", some "e", some "f", some "g", some "h"]
      (by decide) (by decide)).1 (by decide)

/-- C4: the claim fails on `hangman_game_Version2.py`.  With secret word
`"cat"` and raw guess `" a "`, validation passes and returns the
processed letter `"a"`, which does occur in the word; yet this revision
tests the raw lowered line `" a "` against the word and increments the
mistake count from 0 to 1.  `hangman_game.py`, which tests the
processed letter, leaves the mistake count at 0 on the same input. -/
theorem c4_mistake_increment_divergence_V2 :
    (validate_guess (some (pyLower " a ")) ([] : List String)).1 = true ∧
    (validate_guess (some (pyLower " a ")) ([] : List String)).2 = "a" ∧
    pyIn "a" "cat" = true ∧
    (process_guess_V2 ⟨"cat", 6, 0, [], 0⟩ " a ").1.incorrect_guesses = 1 ∧
    (process_guess ⟨"cat", 6, 0, [], 0⟩ (some " a ")).1.incorrect_guesses = 0 := by
  decide

/-- C5: a guess rejected by validation leaves the round state of
`hangman_game.py` completely unchanged and is answered with the
rejection message, and a guess whose processed letter is already in the
guessed set is always answered with the already-guessed rejection. -/
theorem c5_rejection_leaves_state (st : GameState) (raw : Option String) :
    ((validate_guess raw st.guessed_letters).1 = false →
      process_guess st raw = (st, .rejected (validate_guess raw st.guessed_letters).2)) ∧
    (∀ s : String, (pyStrip s).length = 1 →
      pyIsAscii (pyStrip s) = true → pyIsAlpha (pyStrip s) = true →
      pyLower (pyStrip s) ∈ st.guessed_letters →
      validate_guess (some s) st.guessed_letters =
        (false, "You already guessed \x27" ++ pyLower (pyStrip s) ++
          "\x27. Try a different letter.")) := by
  constructor
  · intro h
    simp [process_guess, h]
  · intro s hlen hascii halpha hmem
    have hne : ¬ pyStrip s = "" := by
      intro h0
      rw [h0] at hlen
      exact absurd hlen (by decide)
    simp [validate_guess, hne, hlen, hascii, halpha, hmem]

/-- C5 witness: word `"bee"` after guessing `"e"`, guessing `"e"`
again. -/
theorem c5_witness :
    process_guess ⟨"bee", 6, 0, ["e"], 1⟩ (some "e") =
      (⟨"bee", 6, 0, ["e"], 1⟩,
        .rejected (validate_guess (some "e") ["e"]).2) ∧
    validate_guess (some "e") ["e"] =
      (false, "You already guessed \x27" ++ pyLower (pyStrip "e") ++
        "\x27. Try a different letter.") :=
  ⟨(c5_rejection_leaves_state ⟨"bee", 6, 0, ["e"], 1⟩ (some "e")).1 (by decide),
    (c5_rejection_leaves_state ⟨"bee", 6, 0, ["e"], 1⟩ (some "e")).2 "e"
      (by decide) (by decide) (by decide) (by decide)⟩

/-- C6: `validate_guess` applies its checks in order — strip, empty,
length, ASCII-alphabetic, already guessed — each with its own
rejection message; on success it returns the normalized lowercase
letter (being a pure function, it never mutates the guessed set).  The
four rejection messages are pairwise distinct, whatever the
already-guessed letter. -/
theorem c6_validate_guess_pipeline (s : String) (g : List String) :
    (pyStrip s = "" → validate_guess (some s) g = (false, "Please enter a letter.")) ∧
    (pyStrip s ≠ "" → (pyStrip s).length ≠ 1 →
      validate_guess (some s) g = (false, "Please enter a single letter.")) ∧
    ((pyStrip s).length = 1 → (!pyIsAscii (pyStrip s) || !pyIsAlpha (pyStrip s)) = true →
      validate_guess (some s) g = (false, "Please enter a letter from A-Z.")) ∧
    ((pyStrip s).length = 1 → pyIsAscii (pyStrip s) = true → pyIsAlpha (pyStrip s) = true →
      pyLower (pyStrip s) ∈ g →
      validate_guess (some s) g =
        (false, "You already guessed \x27" ++ pyLower (pyStrip s) ++
          "\x27. Try a different letter.")) ∧
    ((pyStrip s).length = 1 → pyIsAscii (pyStrip s) = true → pyIsAlpha (pyStrip s) = true →
      pyLower (pyStrip s) ∉ g →
      validate_guess (some s) g = (true, pyLower (pyStrip s))) ∧
    ("Please enter a letter." ≠ "Please enter a single letter." ∧
      "Please enter a letter." ≠ "Please enter a letter from A-Z." ∧
      "Please enter a single letter." ≠ "Please enter a letter from A-Z.") ∧
    (∀ x : String,
      "You already guessed \x27" ++ x ++ "\x27. Try a different letter." ≠
          "Please enter a letter." ∧
      "You already guessed \x27" ++ x ++ "\x27. Try a different letter." ≠
          "Please enter a single letter." ∧
      "You already guessed \x27" ++ x ++ "\x27. Try a different letter." ≠
          "Please enter a letter from A-Z.") := by
  have hlen47 : ∀ x : String,
      ("You already guessed \x27" ++ x ++ "\x27. Try a different letter.").length =
        21 + x.length + 26 := by
    intro x
    rw [String.length_append, String.length_append,
      show ("You already guessed \x27" : String).length = 21 from rfl,
      show ("\x27. Try a different letter." : String).length = 26 from rfl]
  refine ⟨?_, ?_, ?_, ?_, ?_, by decide, ?_⟩
  · intro h0
    simp [validate_guess, h0]
  · intro hne hlen
    simp [validate_guess, hne, hlen]
  · intro hlen hrej
    have hne : ¬ pyStrip s = "" := by
      intro h0
      rw [h0] at hlen
      exact absurd hlen (by decide)
    simp only [Bool.or_eq_true, Bool.not_eq_true'] at hrej
    rcases hrej with h | h <;> simp [validate_guess, hne, hlen, h]
  · intro hlen hascii halpha hmem
    have hne : ¬ pyStrip s = "" := by
      intro h0
      rw [h0] at hlen
      exact absurd hlen (by decide)
    simp [validate_guess, hne, hlen, hascii, halpha, hmem]
  · intro hlen hascii halpha hmem
    have hne : ¬ pyStrip s = "" := by
      intro h0
      rw [h0] at hlen
      exact absurd hlen (by decide)
    simp [validate_guess, hne, hlen, hascii, halpha, hmem]
  · intro x
    refine ⟨fun heq => ?_, fun heq => ?_, fun heq => ?_⟩
    · have hl := congrArg String.length heq
      rw [hlen47 x, show ("Please enter a letter." : String).length = 22 from rfl] at hl
      omega
    · have hl := congrArg String.length heq
      rw [hlen47 x,
        show ("Please enter a single letter." : String).length = 29 from rfl] at hl
      omega
    · have hl := congrArg String.length heq
      rw [hlen47 x,
        show ("Please enter a letter from A-Z." : String).length = 31 from rfl] at hl
      omega

/-- C6 witness: the raw guess `"ab"` is rejected as not a single
letter, and the raw guess `"A"` is accepted as the normalized
lowercase letter `"a"`. -/
theorem c6_witness :
    validate_guess (some "ab") [] = (false, "Please enter a single letter.") ∧
    validate_guess (some "A") [] = (true, pyLower (pyStrip "A")) :=
  ⟨(c6_validate_guess_pipeline "ab" []).2.1 (by decide) (by decide),
    (c6_validate_guess_pipeline "A" []).2.2.2.2.1 (by decide) (by decide) (by decide)
      (by decide)⟩

/-- C7: the claim fails on `hangman_game_Version2.py`.  With secret
word `"cat"` and raw guess `" a "`, validation succeeds with the
normalized letter `"a"`, but this revision inserts the raw lowered
line `" a "` — a three-character string that is not a single lowercase
letter — into the guessed set; `hangman_game.py` inserts the
normalized letter `"a"` on the same input. -/
theorem c7_guessed_letters_divergence_V2 :
    (process_guess_V2 ⟨"cat", 6, 0, [], 0⟩ " a ").1.guessed_letters = [" a "] ∧
    (" a " : String).length = 3 ∧
    validate_guess (some (pyLower " a ")) ([] : List String) = (true, "a") ∧
    (process_guess ⟨"cat", 6, 0, [], 0⟩ (some " a ")).1.guessed_letters = ["a"] := by
  decide

/-- C8: the claim fails on `hangman_game_Version2.py`.  With secret
word `"cat"` and the input lines `"5"`, `"c"`, `"a"`, `"t"`, the first
line is rejected by validation, yet this revision increments
`turns_taken` before validating and reports the win after 4 turns;
`hangman_game.py` increments the counter only for valid guesses and
reports the same win after 3 turns, the number of valid guesses. -/
theorem c8_turn_count_divergence_V2 :
    (validate_guess (some (pyLower "5")) ([] : List String)).1 = false ∧
    play_hangman_loop_V2 ⟨"cat", 6, 0, [], 0⟩ ["5", "c", "a", "t"] =
      .win ⟨"cat", 6, 0, ["c", "a", "t"], 4⟩ ∧
    play_hangman_loop ⟨"cat", 6, 0, [], 0⟩ [some "5", some "c", some "a", some "t"] =
      .win ⟨"cat", 6, 0, ["c", "a", "t"], 3⟩ := by
  decide

/-- C9: for every mistake count from 0 to 6, both revisions of
`display_hangman` index their stage list in range and return an art
frame, and distinct counts yield distinct frames. -/
theorem c9_one_frame_per_count (n : Nat) (h : n ≤ 6) :
    (display_hangman n).isSome = true ∧
    (display_hangman_V2 n).isSome = true ∧
    (0 : Int) ≤ max 0 (min 6 (6 - (n : Int))) ∧
    (max 0 (min 6 (6 - (n : Int)))).toNat < stages.length ∧
    (0 : Int) ≤ 6 - (n : Int) ∧
    ((6 : Int) - (n : Int)).toNat < stagesV2.length ∧
    (∀ m : Nat, m ≤ 6 → ∀ k : Nat, k ≤ 6 → display_hangman m = display_hangman k → m = k) ∧
    (∀ m : Nat, m ≤ 6 → ∀ k : Nat, k ≤ 6 →
      display_hangman_V2 m = display_hangman_V2 k → m = k) := by
  refine ⟨?_, ?_, ?_, ?_, ?_, ?_, by decide, by decide⟩ <;> (interval_cases n <;> decide)

/-- C9 witness: mistake count 3. -/
theorem c9_witness :
    (display_hangman 3).isSome = true ∧ (display_hangman_V2 3).isSome = true :=
  ⟨(c9_one_frame_per_count 3 (by decide)).1, (c9_one_frame_per_count 3 (by decide)).2.1⟩

/-- C10: a missing (`None`) raw guess is answered with the empty-input
rejection rather than an error, the same rejection as for a
whitespace-only guess. -/
theorem c10_none_guess_total (g : List String) (s : String)
    (hws : s.data.all Char.isWhitespace = true) :
    validate_guess none g = (false, "Please enter a letter.") ∧
    validate_guess (some s) g = (false, "Please enter a letter.") ∧
    validate_guess (some s) g = validate_guess none g := by
  have h1 : s.data.dropWhile Char.isWhitespace = [] := by
    rw [List.dropWhile_eq_nil_iff]
    intro x hx
    exact List.all_eq_true.mp hws x hx
  have hstrip : pyStrip s = "" := by
    simp [pyStrip, h1]
  exact ⟨rfl, by simp [validate_guess, hstrip], by simp [validate_guess, hstrip]⟩

/-- C10 witness: the guess `"   "` of three spaces and the missing
guess. -/
theorem c10_witness :
    validate_guess none [] = (false, "Please enter a letter.") ∧
    validate_guess (some "   ") [] = (false, "Please enter a letter.") ∧
    validate_guess (some "   ") [] = validate_guess none [] :=
  c10_none_guess_total [] "   " (by decide)
